import Mathlib

/-
Verification development for the `tsdoc` command-line tool: a shallow
embedding of `src/main.ts` (the `bun` variant with package support), whose
functions resolve a dotted symbol path against TypeScript declaration files
and print documentation for the resolved symbol.

The TypeScript compiler API (`ts.TypeChecker`, `ts.Program`, `require`,
`fs`, `path`) is external to the repository; its answers are modelled as
oracle data carried by `Checker`, `FsEnv` and `Env` structures.  Every
function of the repository itself (`tryFindPackage`, `resolvePackageTypes`,
`getLibFiles`, `findSymbolInFile`, `getSymbolKind`, `printModuleExports`,
`printSymbolDocs`, `findAndPrintDocs`, `main`) is translated directly from
the source.
-/

set_option autoImplicit false

namespace Tsdoc

/-- A single quote character, used to build the exact user-facing messages. -/
def squote : String := String.singleton (Char.ofNat 39)

/-- The string `a.repeat n` of JavaScript: `n` copies of `a` concatenated. -/
def repeatStr (n : Nat) (a : String) : String :=
  match n with
  | 0 => ""
  | k + 1 => a ++ repeatStr k a

/-- Whether `pat` occurs as a contiguous subsequence of `l`. -/
def containsSeq (pat : List Char) : List Char → Bool
  | [] => pat.isEmpty
  | c :: cs => pat.isPrefixOf (c :: cs) || containsSeq pat cs

/-- JavaScript `s.includes(pat)` for a non-empty pattern. -/
def includes (s pat : String) : Bool :=
  containsSeq pat.toList s.toList

/-- JavaScript `s.split(sep)` for a one-character separator, as the source
uses it on `"."` and path slashes. -/
def splitOnChar (s : String) (sep : Char) : List String :=
  (s.toList.splitOn sep).map List.asString

/-- JavaScript `s.split(pat)[0]`: the text before the first occurrence of
`pat`, or all of `s` when `pat` does not occur. -/
def takeBefore (pat : List Char) : List Char → List Char
  | [] => []
  | c :: cs => if pat.isPrefixOf (c :: cs) then [] else c :: takeBefore pat cs

/-- The head of a JavaScript split: `s.split(pat)[0]`. -/
def headSplit (s pat : String) : String :=
  List.asString (takeBefore pat.toList s.toList)

/-- JavaScript `s.slice(0, n)`. -/
def strTake (s : String) (n : Nat) : String :=
  List.asString (s.toList.take n)

/-- JavaScript `s.startsWith(pre)`. -/
def strStartsWith (s pre : String) : Bool :=
  pre.toList.isPrefixOf s.toList

/-- JavaScript `s.endsWith(suf)`. -/
def strEndsWith (s suf : String) : Bool :=
  suf.toList.isSuffixOf s.toList

/-- JavaScript `String.prototype.replace` with a one-character string
pattern replaces only the first occurrence. -/
def replaceFirst (s : String) (pat : Char) (repl : String) : String :=
  match s.toList.splitOn pat with
  | [] => s
  | [_] => s
  | x :: ys =>
    List.asString x ++ repl
      ++ String.intercalate (String.singleton pat) (ys.map List.asString)

/-- Model of `path.dirname`: everything before the last slash. -/
def dirname (p : String) : String :=
  let parts := splitOnChar p (Char.ofNat 47)
  if parts.length ≤ 1 then "." else String.intercalate "/" parts.dropLast

/-- Model of `path.join` restricted to the two-argument uses in the source. -/
def joinPath (a b : String) : String := a ++ "/" ++ b

/-- Shape of an interface member node (`PropertySignature`,
`MethodSignature`, or any other member kind). -/
inductive MemberShape where
  | propertySig
  | methodSig
  | otherMember
  deriving DecidableEq, Repr, Inhabited

/-- Syntactic data of one interface member, together with the checker's
answers attached to the node: `typeText` is `member.type.getText`,
`sigText` is `signatureToString (getSignatureFromDeclaration member)`, and
`nameSym` is the id of `checker.getSymbolAtLocation(member.name)`. -/
structure MemberDecl where
  name : Option String
  shape : MemberShape
  typeText : Option String
  readonlyMod : Bool
  questionToken : Bool
  sigText : Option String
  nameSym : Nat
  deriving DecidableEq, Repr, Inhabited

/-- Modifier flags read off a declaration node's modifier list. -/
structure Modifiers where
  readonlyMod : Bool
  staticMod : Bool
  deriving DecidableEq, Repr, Inhabited

/-- A variable declaration inside a variable statement; `name` is `none`
when the binding is not a plain identifier (`ts.isIdentifier` fails). -/
structure VarDeclNode where
  name : Option String
  nameSym : Nat
  deriving DecidableEq, Repr, Inhabited

/-- A named-export specifier of an export declaration: exported name and
the symbol id the checker assigns to the name node. -/
structure ExportSpec where
  name : String
  nameSym : Nat
  deriving DecidableEq, Repr, Inhabited

/-- Declaration nodes of the syntax tree, restricted to the kinds the
source discriminates (`ts.isInterfaceDeclaration` etc.); every other node
kind is `otherDecl`.  `nameSym` fields carry the checker's
`getSymbolAtLocation` answer for the declaration's name node. -/
inductive Decl where
  | interfaceDecl (name : String) (nameSym : Nat) (members : List MemberDecl)
  | classDecl (name : Option String) (nameSym : Nat)
  | typeAliasDecl (name : String) (nameSym : Nat) (typeText : String)
  | functionDecl (name : String)
  | methodDecl (name : String)
  | methodSigDecl (name : String)
  | propertyDecl (name : String) (questionToken : Bool) (mods : Modifiers)
  | propertySigDecl (name : String) (questionToken : Bool) (mods : Modifiers)
  | variableStatement (decls : List VarDeclNode)
  | variableDecl (name : String)
  | enumDecl (name : String)
  | moduleDecl (name : String) (nameSym : Nat) (body : List Decl)
  | exportDecl (elements : List ExportSpec)
  | otherDecl
  deriving Inhabited

/-- A documentation tag as returned by `symbol.getJsDocTags`: a name and
optional display-part text (`none` models an `undefined` text array). -/
structure JsTag where
  name : String
  text : Option String
  deriving DecidableEq, Repr, Inhabited

/-- Model of `ts.displayPartsToString tag.text`. -/
def tagText (t : JsTag) : String := t.text.getD ""

/-- Checker-side data of a symbol: its name, declarations, documentation
comment and tags, and whether `SymbolFlags.Optional` is set. -/
structure SymbolData where
  name : String
  valueDeclaration : Option Decl
  declarations : List Decl
  jsDocTags : List JsTag
  docComment : String
  flagsOptional : Bool
  deriving Inhabited

/-- A type parameter as rendered by the source: name, and the already
rendered constraint / default type texts when present. -/
structure TypeParamData where
  name : String
  constraintStr : Option String
  defaultStr : Option String
  deriving DecidableEq, Repr, Inhabited

/-- A signature parameter with the checker's answers the source consumes:
rendered type, `isOptionalParameter`, initializer text, doc comment. -/
structure ParamData where
  name : String
  typeStr : String
  optional : Bool
  defaultText : Option String
  doc : String
  deriving DecidableEq, Repr, Inhabited

/-- A call or construct signature: its rendered text, type parameters,
parameters, rendered return type and the signature's own doc tags. -/
structure SigData where
  sigText : String
  typeParams : List TypeParamData
  params : List ParamData
  returnTypeStr : String
  jsTags : List JsTag
  deriving DecidableEq, Repr, Inhabited

/-- Checker-side data of a type: its properties (ordered symbol ids, as
`type.getProperties()` returns them), call and construct signatures, and
the two renderings the source requests (`typeToString` plain and with
`NoTruncation`). -/
structure TyData where
  props : List Nat
  callSignatures : List SigData
  constructSignatures : List SigData
  typeString : String
  typeStringNoTrunc : String
  deriving DecidableEq, Repr, Inhabited

/-- A source file of the program: file name, `isDeclarationFile` flag and
its top-level statements. -/
structure SourceFileData where
  fileName : String
  isDeclarationFile : Bool
  decls : List Decl
  deriving Inhabited

/-- The semantic oracle: symbol and type tables indexed by id, the
symbol-to-type map (`getTypeOfSymbolAtLocation`), per-file module symbols
(`getSymbolAtLocation sourceFile`), module export lists
(`getExportsOfModule`) and declaration line numbers
(`getLineAndCharacterOfPosition` of a declaration's start). -/
structure Checker where
  symbols : List SymbolData
  types : List TyData
  typeOfSym : Nat → Nat
  moduleSymbol : String → Option Nat
  exportsOfModule : Nat → List Nat
  declLine : Decl → Nat

/-- Look a symbol up by id. -/
def getSym (c : Checker) (i : Nat) : SymbolData := c.symbols.getD i default

/-- The type of a symbol (`checker.getTypeOfSymbolAtLocation`). -/
def getTy (c : Checker) (i : Nat) : TyData := c.types.getD (c.typeOfSym i) default

/-- Model of `symbol.valueDeclaration || symbol.declarations?.[0]`. -/
def getDeclOf (s : SymbolData) : Option Decl :=
  s.valueDeclaration.orElse fun _ => s.declarations.head?

/-- Model of `type.getProperty name`: the first property symbol of that
name. -/
def getProperty (c : Checker) (ty : TyData) (name : String) : Option Nat :=
  ty.props.find? fun p => (getSym c p).name = name

/-- Strip every single and double quote character, as the global
quote-stripping replace of the module-name branch does. -/
def stripQuotes (s : String) : String :=
  String.mk (s.toList.filter fun ch => ch ≠ Char.ofNat 39 ∧ ch ≠ Char.ofNat 34)

mutual

/-- One step of the `visit` traversal of `findSymbolInFile`: the match the
source performs at a single node.  A `moduleDecl` first compares its own
(quote-stripped) name and otherwise searches its body; within a variable
statement or an export clause the source loop lets a later match overwrite
an earlier one, hence the search over the reversed element list. -/
def visitNode (first : String) : Decl → Option Nat
  | .interfaceDecl n s _ => if n = first then some s else none
  | .classDecl n s => if n = some first then some s else none
  | .typeAliasDecl n s _ => if n = first then some s else none
  | .variableStatement ds =>
      (ds.reverse.find? fun d => d.name = some first).map (·.nameSym)
  | .moduleDecl n s body =>
      if stripQuotes n = first then some s else visitDecls first body
  | .exportDecl els =>
      (els.reverse.find? fun e => e.name = first).map (·.nameSym)
  | _ => none

/-- First-match depth-first search over a statement list, as the shared
`currentSymbol` early-exit traversal of the source performs it. -/
def visitDecls (first : String) : List Decl → Option Nat
  | [] => none
  | d :: ds => (visitNode first d).orElse fun _ => visitDecls first ds

end

/-- Step 1 of resolution for one file: the syntax-tree walk. -/
def rootSearch (file : SourceFileData) (first : String) : Option Nat :=
  visitDecls first file.decls

/-- Step 2 of resolution for one file: the module-export-list fallback
(`getExportsOfModule` searched by exact name). -/
def exportFallback (c : Checker) (file : SourceFileData) (first : String) : Option Nat :=
  match c.moduleSymbol file.fileName with
  | none => none
  | some m => (c.exportsOfModule m).find? fun e => (getSym c e).name = first

/-- The root symbol of a file: step 1, then step 2 only when step 1 found
nothing. -/
def rootOf (c : Checker) (file : SourceFileData) (first : String) : Option Nat :=
  (rootSearch file first).orElse fun _ => exportFallback c file first

/-- Member descent: for each remaining segment, require a declaration,
take the symbol's type, and look the segment up as a property; any absence
aborts with `none`. -/
def descend (c : Checker) : List String → Nat → Option Nat
  | [], s => some s
  | part :: restParts, s =>
    match getDeclOf (getSym c s) with
    | none => none
    | some _ =>
      match getProperty c (getTy c s) part with
      | none => none
      | some prop => descend c restParts prop

/-- Embedding of `findSymbolInFile`: root search with export fallback,
then member descent over the remaining segments. -/
def findSymbolInFile (c : Checker) (file : SourceFileData) (parts : List String) : Option Nat :=
  match parts with
  | [] => none
  | first :: rest =>
    match rootOf c file first with
    | none => none
    | some s => descend c rest s

/-- Embedding of `getSymbolKind`: the fixed mapping from declaration node
shape to the kind string. -/
def getSymbolKind : Decl → String
  | .interfaceDecl _ _ _ => "interface"
  | .classDecl _ _ => "class"
  | .typeAliasDecl _ _ _ => "type alias"
  | .functionDecl _ => "function"
  | .methodDecl _ => "method"
  | .methodSigDecl _ => "method"
  | .propertyDecl _ _ _ => "property"
  | .propertySigDecl _ _ _ => "property"
  | .variableDecl _ => "variable"
  | .enumDecl _ => "enum"
  | .moduleDecl _ _ _ => "module"
  | _ => "symbol"

/-- The parsed fields of a package manifest the source consumes. -/
structure PkgJson where
  types : Option String
  typings : Option String
  deriving DecidableEq, Repr, Inhabited

/-- The file system and module resolution oracle: `requireResolve` and
`readFileJson` answer `none` where the corresponding JavaScript call
throws; `readFileJson` bundles `fs.readFileSync` with `JSON.parse`. -/
structure FsEnv where
  requireResolve : String → Option String
  readFileJson : String → Option PkgJson
  existsSync : String → Bool
  readdir : String → Option (List String)

/-- The `@types/` community package name the source derives from a package
name (each `replace` replaces the first occurrence only). -/
def typesPackageName (packageName : String) : String :=
  "@types/" ++ replaceFirst (replaceFirst packageName (Char.ofNat 64) "") (Char.ofNat 47) "__"

/-- Embedding of `tryFindPackage`: the package manifest resolves, or the
corresponding `@types` manifest does. -/
def tryFindPackage (fs : FsEnv) (packageName : String) : Bool :=
  (fs.requireResolve (packageName ++ "/package.json")).isSome ||
  (fs.requireResolve (typesPackageName packageName ++ "/package.json")).isSome

/-- The declaration files named by one resolved manifest: the `types`
field, else the `typings` field, else a conventional `index.d.ts` beside
the manifest when it exists.  `none` models the manifest read or parse
throwing. -/
def manifestFiles (fs : FsEnv) (jsonPath : String) : Option (List String) :=
  let dir := dirname jsonPath
  match fs.readFileJson jsonPath with
  | none => none
  | some j =>
    match j.types with
    | some t => some [joinPath dir t]
    | none =>
      match j.typings with
      | some t => some [joinPath dir t]
      | none =>
        let indexDts := joinPath dir "index.d.ts"
        some (if fs.existsSync indexDts then [indexDts] else [])

/-- The `@types` half of `resolvePackageTypes`: resolve the `@types`
manifest and read it; `none` when either step throws. -/
def typesEntry (fs : FsEnv) (packageName : String) : Option (List String) :=
  match fs.requireResolve (typesPackageName packageName ++ "/package.json") with
  | none => none
  | some p => manifestFiles fs p

/-- Embedding of `resolvePackageTypes`: the package's own manifest first,
with the `@types` manifest appended; every failure is swallowed by the
nested `try`/`catch` chain, degrading to fewer files. -/
def resolvePackageTypes (fs : FsEnv) (packageName : String) : List String :=
  match fs.requireResolve (packageName ++ "/package.json") with
  | some pkgJsonPath =>
    match manifestFiles fs pkgJsonPath with
    | none => (typesEntry fs packageName).getD []
    | some mainFiles => mainFiles ++ (typesEntry fs packageName).getD []
  | none => (typesEntry fs packageName).getD []

/-- Embedding of `getLibFiles`: every `lib.*.d.ts` beside the resolved
TypeScript module, plus the package's declaration files when a package
name is given; a failure to locate the lib directory yields `[]`. -/
def getLibFiles (fs : FsEnv) (packageName : Option String) : List String :=
  match fs.requireResolve "typescript" with
  | none => []
  | some tsPath =>
    let libDir := dirname tsPath
    match fs.readdir libDir with
    | none => []
    | some entries =>
      let libNames := entries.filter fun f => strStartsWith f "lib." && strEndsWith f ".d.ts"
      let files := libNames.map (joinPath libDir)
      match packageName with
      | some pkg => files ++ resolvePackageTypes fs pkg
      | none => files

/-- One export's lines in `printModuleExports`: name with kind, then the
one-line doc excerpt when present; exports with no declaration are
skipped. -/
def exportLine (c : Checker) (e : Nat) : List String :=
  let sym := getSym c e
  match getDeclOf sym with
  | none => []
  | some decl =>
    let kind := getSymbolKind decl
    let doc := sym.docComment
    let shortDoc :=
      if doc ≠ "" then
        strTake (headSplit doc "\n") 80 ++ (if doc.length > 80 then "..." else "")
      else ""
    ["  " ++ sym.name ++ " (" ++ kind ++ ")"] ++
      (if shortDoc ≠ "" then ["    " ++ shortDoc] else [])

/-- Embedding of `printModuleExports` as the ordered list of printed
chunks: header, the export list capped at 50, a remaining count beyond the
cap, and the tip line. -/
def printModuleExports (c : Checker) (sf : SourceFileData) (packageName : String) : List String :=
  let header := ["\n" ++ packageName, repeatStr packageName.length "=",
    "\nKind: package", "Location: " ++ sf.fileName]
  match c.moduleSymbol sf.fileName with
  | none => header ++ ["\nNo exports found"]
  | some m =>
    let exps := c.exportsOfModule m
    if exps.length > 0 then
      header ++ ["\nExports (" ++ toString exps.length ++ "):"]
        ++ (exps.take 50).flatMap (exportLine c)
        ++ (if exps.length > 50 then
              ["  ... and " ++ toString (exps.length - 50) ++ " more"] else [])
        ++ ["\nTip: Use " ++ squote ++ "tsdoc " ++ packageName ++ ".<symbol>" ++ squote
              ++ " to view details for a specific export"]
    else header

/-- The type-parameter lines of a signature section. -/
def typeParamLines (tps : List TypeParamData) : List String :=
  if tps.length > 0 then
    "\n  Type Parameters:" :: tps.map fun tp =>
      "    " ++ tp.name
        ++ (match tp.constraintStr with | some s => " extends " ++ s | none => "")
        ++ (match tp.defaultStr with | some s => " = " ++ s | none => "")
  else []

/-- The parameter lines of a signature section: name with optional marker,
rendered type, default text, and the parameter's doc line when present. -/
def paramLines (ps : List ParamData) : List String :=
  if ps.length > 0 then
    "\n  Parameters:" :: ps.flatMap fun p =>
      ["    " ++ p.name ++ (if p.optional then "?" else "") ++ ": " ++ p.typeStr
        ++ (match p.defaultText with | some d => " = " ++ d | none => "")]
      ++ (if p.doc ≠ "" then ["      " ++ p.doc] else [])
  else []

/-- The construct-signature section of `printSymbolDocs`. -/
def ctorSigSection (sigs : List SigData) : List String :=
  if sigs.length > 0 then
    "\nConstructor Signatures:" :: sigs.flatMap fun sig =>
      ["  new " ++ sig.sigText] ++ typeParamLines sig.typeParams ++ paramLines sig.params
  else []

/-- The call-signature section of `printSymbolDocs`, with the return type
and, when the signature carries a `@returns`/`@return` tag with text, that
text. -/
def callSigSection (sigs : List SigData) : List String :=
  if sigs.length > 0 then
    "\nCall Signatures:" :: sigs.flatMap fun sig =>
      ["  " ++ sig.sigText] ++ typeParamLines sig.typeParams ++ paramLines sig.params
      ++ ["\n  Returns: " ++ sig.returnTypeStr]
      ++ (match sig.jsTags.find? fun t => t.name = "returns" || t.name = "return" with
          | some tag =>
            let d := tagText tag
            if d ≠ "" then ["    " ++ d] else []
          | none => [])
  else []

/-- The flat-type section: only when the type has neither call nor
construct signatures; a type alias shows its aliased type's literal text,
an interface shows nothing, anything else the checker's rendered type. -/
def flatTypeSection (decl : Decl) (ty : TyData) : List String :=
  if ty.callSignatures.length = 0 ∧ ty.constructSignatures.length = 0 then
    match decl with
    | .typeAliasDecl _ _ typeText => ["\nType: " ++ typeText]
    | .interfaceDecl _ _ _ => []
    | _ => ["\nType: " ++ ty.typeStringNoTrunc]
  else []

/-- The deprecation section: present exactly when a `deprecated` tag is
found, with the tag's text appended verbatim when non-empty. -/
def deprecatedSection (tags : List JsTag) : List String :=
  match tags.find? fun t => t.name = "deprecated" with
  | some tag =>
    let txt := tagText tag
    ["\nDEPRECATED" ++ (if txt ≠ "" then ": " ++ txt else "")]
  | none => []

/-- The `@since` section. -/
def sinceSection (tags : List JsTag) : List String :=
  match tags.find? fun t => t.name = "since" with
  | some tag => ["\nSince: " ++ tagText tag]
  | none => []

/-- The description section, present when the doc comment is non-empty. -/
def descriptionSection (doc : String) : List String :=
  if doc ≠ "" then ["\nDescription:\n" ++ doc] else []

/-- The `@throws`/`@exception` section. -/
def throwsSection (tags : List JsTag) : List String :=
  let ts := tags.filter fun t => t.name = "throws" || t.name = "exception"
  if ts.length > 0 then "\nThrows:" :: ts.map (fun t => "  " ++ tagText t) else []

/-- The `@example` section: raw tag text, printed only when non-empty. -/
def examplesSection (tags : List JsTag) : List String :=
  let es := tags.filter fun t => t.name = "example"
  if es.length > 0 then
    "\nExamples:" :: es.flatMap fun t =>
      let x := tagText t
      if x ≠ "" then [x] else []
  else []

/-- The `@see` section. -/
def seeSection (tags : List JsTag) : List String :=
  let ss := tags.filter fun t => t.name = "see"
  if ss.length > 0 then "\nSee also:" :: ss.map (fun t => "  " ++ tagText t) else []

/-- The residual tag section: every tag name not already consumed
elsewhere, rendered as an `@name text` line. -/
def otherTagsSection (tags : List JsTag) : List String :=
  let os := tags.filter fun t =>
    t.name ≠ "deprecated" && t.name ≠ "example" && t.name ≠ "see" &&
    t.name ≠ "since" && t.name ≠ "throws" && t.name ≠ "exception" &&
    t.name ≠ "param" && t.name ≠ "returns" && t.name ≠ "return" &&
    t.name ≠ "template"
  if os.length > 0 then
    "\nTags:" :: os.map fun t =>
      let txt := tagText t
      "  @" ++ t.name ++ (if txt ≠ "" then " " ++ txt else "")
  else []

/-- One interface member's lines: the declared member list is iterated
directly; properties show their annotated type text, optional marker and
`readonly` modifier, methods the checker's signature text; the member's
own doc comment follows.  Note the source splits the member doc on the
two-character text backslash-n, not on a newline. -/
def interfaceMemberLine (c : Checker) (m : MemberDecl) : List String :=
  match m.name with
  | none => []
  | some memberName =>
    let memberTypeStr :=
      match m.shape with
      | .propertySig => m.typeText.getD ""
      | .methodSig => m.sigText.getD ""
      | .otherMember => ""
    let modifiers : List String :=
      match m.shape with
      | .propertySig => if m.readonlyMod then ["readonly"] else []
      | _ => []
    let isOptional :=
      match m.shape with
      | .propertySig => m.questionToken
      | _ => false
    let optionalMarker := if isOptional then "?" else ""
    let modifierStr := if modifiers.length > 0 then String.intercalate " " modifiers ++ " " else ""
    let memberDoc := (getSym c m.nameSym).docComment
    ["  " ++ modifierStr ++ memberName ++ optionalMarker ++ ": " ++ memberTypeStr]
      ++ (if memberDoc ≠ "" then ["    " ++ headSplit memberDoc "\\n"] else [])

/-- The interface branch of the member section: a header and every
declared member, with no cap. -/
def interfaceMemberLines (c : Checker) (members : List MemberDecl) : List String :=
  "\nMembers:" :: members.flatMap (interfaceMemberLine c)

/-- One property's lines in the non-interface member section: modifiers
from the declaration, optional marker from symbol flags or question token,
the plainly rendered type, and a one-line doc excerpt. -/
def propLine (c : Checker) (p : Nat) : List String :=
  let sym := getSym c p
  match getDeclOf sym with
  | none => []
  | some propDecl =>
    let propTypeStr := (getTy c p).typeString
    let mods :=
      match propDecl with
      | .propertyDecl _ _ ms => ms
      | .propertySigDecl _ _ ms => ms
      | _ => { readonlyMod := false, staticMod := false }
    let modifiers : List String :=
      (if mods.readonlyMod then ["readonly"] else [])
        ++ (if mods.staticMod then ["static"] else [])
    let declQuestion :=
      match propDecl with
      | .propertyDecl _ q _ => q
      | .propertySigDecl _ q _ => q
      | _ => false
    let isOptional := sym.flagsOptional || declQuestion
    let optionalMarker := if isOptional then "?" else ""
    let modifierStr := if modifiers.length > 0 then String.intercalate " " modifiers ++ " " else ""
    let propDoc := sym.docComment
    ["  " ++ modifierStr ++ sym.name ++ optionalMarker ++ ": " ++ propTypeStr]
      ++ (if propDoc ≠ "" then ["    " ++ headSplit propDoc "\n"] else [])

/-- The non-interface branch of the member section: the resolved type's
properties capped at 20, with a remaining count beyond the cap. -/
def propertyMemberLines (c : Checker) (ty : TyData) : List String :=
  if ty.props.length > 0 then
    "\nMembers:" :: (ty.props.take 20).flatMap (propLine c)
      ++ (if ty.props.length > 20 then
            ["  ... and " ++ toString (ty.props.length - 20) ++ " more"] else [])
  else []

/-- The member section: declared members for an interface, capped type
properties otherwise. -/
def membersSection (c : Checker) (decl : Decl) (ty : TyData) : List String :=
  match decl with
  | .interfaceDecl _ _ ms => interfaceMemberLines c ms
  | _ => propertyMemberLines c ty

/-- The header of `printSymbolDocs`: name, underline, kind, location. -/
def headerSection (c : Checker) (sf : SourceFileData) (name : String) (decl : Decl) : List String :=
  ["\n" ++ name, repeatStr name.length "=", "\nKind: " ++ getSymbolKind decl,
    "Location: " ++ sf.fileName ++ ":" ++ toString (c.declLine decl + 1)]

/-- Embedding of `printSymbolDocs` as the ordered list of printed chunks;
a symbol with no declaration prints nothing. -/
def printSymbolDocs (c : Checker) (sf : SourceFileData) (symId : Nat) : List String :=
  let sym := getSym c symId
  match getDeclOf sym with
  | none => []
  | some decl =>
    let ty := getTy c symId
    headerSection c sf sym.name decl
      ++ ctorSigSection ty.constructSignatures
      ++ callSigSection ty.callSignatures
      ++ flatTypeSection decl ty
      ++ deprecatedSection sym.jsDocTags
      ++ sinceSection sym.jsDocTags
      ++ descriptionSection sym.docComment
      ++ throwsSection sym.jsDocTags
      ++ examplesSection sym.jsDocTags
      ++ seeSection sym.jsDocTags
      ++ otherTagsSection sym.jsDocTags
      ++ membersSection c decl ty

/-- The outcome of one resolution pass: an export listing for a package
root, a symbol description, or the not-found report. -/
inductive Result where
  | exportListing (chunks : List String)
  | symbolDocs (sym : Nat) (file : String) (chunks : List String)
  | notFound (symbolPath : String)
  deriving DecidableEq, Repr

/-- The program oracle: `createProgram` with a fixed target returns the
program's source files and checker, or raises (`Except.error`). -/
structure ProgramData where
  sourceFiles : List SourceFileData
  checker : Checker

/-- The ambient environment of one invocation: file system oracle and
program builder. -/
structure Env where
  fs : FsEnv
  createProgram : List String → Except String ProgramData

/-- The file loop of `findAndPrintDocs`: the first declaration file that
answers wins; a package query answers with the export listing of the first
package type file, a symbol query with the first file whose
`findSymbolInFile` succeeds. -/
def searchLoop (c : Checker) (files : List SourceFileData) (pkgFiles : List String)
    (isPackageQuery : Bool) (rootModule : String) (searchParts : List String)
    (symbolPath : String) : Result :=
  match files with
  | [] => .notFound symbolPath
  | sf :: rest =>
    if sf.isDeclarationFile then
      if isPackageQuery && pkgFiles.contains sf.fileName then
        .exportListing (printModuleExports c sf rootModule)
      else if !isPackageQuery then
        match findSymbolInFile c sf searchParts with
        | some sym => .symbolDocs sym sf.fileName (printSymbolDocs c sf sym)
        | none => searchLoop c rest pkgFiles isPackageQuery rootModule searchParts symbolPath
      else searchLoop c rest pkgFiles isPackageQuery rootModule searchParts symbolPath
    else searchLoop c rest pkgFiles isPackageQuery rootModule searchParts symbolPath

/-- Embedding of `findAndPrintDocs`: split the path, decide whether the
root is a recognized package, build the universe and program, and run the
file loop. -/
def findAndPrintDocs (env : Env) (symbolPath : String) : Except String Result :=
  let parts := splitOnChar symbolPath (Char.ofNat 46)
  let rootModule := parts.headD ""
  let pkgFound := tryFindPackage env.fs rootModule
  let libFiles := if pkgFound then getLibFiles env.fs (some rootModule) else getLibFiles env.fs none
  let searchParts := if pkgFound then parts.tail else parts
  let isPackageQuery := pkgFound && searchParts.isEmpty
  match env.createProgram libFiles with
  | .error e => .error e
  | .ok prog =>
    let packageTypeFiles := libFiles.filter fun f => !(includes f "/typescript/lib/")
    .ok (searchLoop prog.checker prog.sourceFiles packageTypeFiles isPackageQuery
          rootModule searchParts symbolPath)

/-- The observable outcome of one process invocation: exit status and the
chunks written to the standard output and error streams. -/
structure ProcResult where
  exitCode : Nat
  stdout : List String
  stderr : List String
  deriving DecidableEq, Repr

/-- The usage text `printUsage` writes. -/
def usageText : String :=
  "Usage: tsdoc [options] <symbol>\n\nShow documentation for TypeScript symbols from built-in types, Node.js APIs, and third-party packages.\n\nExamples:\n  tsdoc Array                  # Show Array interface with all members\n  tsdoc Promise.all            # Show Promise.all method signature\n  tsdoc express                # List all exports from express package\n  tsdoc express.Request        # Show express Request interface details\n  tsdoc react.Component        # Show React Component class details\n\nOptions:\n  -h, --help        Show this help message\n"

/-- The not-found report `findAndPrintDocs` writes to the error stream. -/
def notFoundMessage (p : String) : String :=
  "Symbol " ++ squote ++ p ++ squote ++ " not found"

/-- Embedding of `main`: help or missing argument prints usage and exits
with status 0; a resolution failure reports on the error stream with
status 1; an internal exception reports `Error: <message>` with status 1;
success prints the chunks with status 0. -/
def main (env : Env) (args : List String) : ProcResult :=
  if args.length = 0 || args.headD "" = "-h" || args.headD "" = "--help" then
    { exitCode := 0, stdout := [usageText], stderr := [] }
  else
    let symbolPath := args.headD ""
    match findAndPrintDocs env symbolPath with
    | .error msg => { exitCode := 1, stdout := [], stderr := ["Error: " ++ msg] }
    | .ok (.notFound p) => { exitCode := 1, stdout := [], stderr := [notFoundMessage p] }
    | .ok (.exportListing chunks) => { exitCode := 0, stdout := chunks, stderr := [] }
    | .ok (.symbolDocs _ _ chunks) => { exitCode := 0, stdout := chunks, stderr := [] }

/-- Whether a top-level node declares `first` as an interface, class,
type alias or variable: the shapes the `visit` walk is supposed to match
by name (function declarations are conspicuously absent from the walk). -/
def isNamedTopDecl (first : String) : Decl → Bool
  | .interfaceDecl n _ _ => n == first
  | .classDecl n _ => n == some first
  | .typeAliasDecl n _ _ => n == first
  | .variableStatement ds => ds.any fun d => d.name == some first
  | _ => false

/-- Recognizes the entry lines of a member or export listing: exactly two
leading spaces (doc excerpt lines carry four) and not the
`"  ... and N more"` truncation report. -/
def isEntryLine (s : String) : Bool :=
  strStartsWith s "  " && !(strStartsWith s "   ") && !(strStartsWith s "  ...")
/-- A declaration file whose only statement is a top-level declared
function `f`; the file is a module exporting `f`. -/
def c1File : SourceFileData where
  fileName := "/lib/a.d.ts"
  isDeclarationFile := true
  decls := [.functionDecl "f"]

/-- The symbol of the declared function `f`. -/
def c1FunSym : SymbolData where
  name := "f"
  valueDeclaration := some (.functionDecl "f")
  declarations := [.functionDecl "f"]
  jsDocTags := []
  docComment := ""
  flagsOptional := false

/-- Checker for `c1File`: symbol 0 is the declared function `f`, symbol 1
the file's module symbol, whose export list contains `f`. -/
def c1Checker : Checker where
  symbols := [c1FunSym]
  types := []
  typeOfSym := fun _ => 0
  moduleSymbol := fun n => if n = "/lib/a.d.ts" then some 1 else none
  exportsOfModule := fun m => if m = 1 then [0] else []
  declLine := fun _ => 0

/-- A symbol named `X` with an interface declaration. -/
def c1wIfaceSym : SymbolData where
  name := "X"
  valueDeclaration := none
  declarations := [.interfaceDecl "X" 0 []]
  jsDocTags := []
  docComment := ""
  flagsOptional := false

/-- A declaration-less symbol named `X`, sitting in an export list. -/
def c1wExportSym : SymbolData where
  name := "X"
  valueDeclaration := none
  declarations := []
  jsDocTags := []
  docComment := ""
  flagsOptional := false

/-- A declaration file declaring interface `X` at top level. -/
def c1wFile : SourceFileData where
  fileName := "/lib/b.d.ts"
  isDeclarationFile := true
  decls := [.interfaceDecl "X" 0 []]

/-- Checker for `c1wFile`: symbol 0 is the declared interface `X`; the
file's module export list carries the distinct symbol 1 of the same name,
so both resolution steps would match the root. -/
def c1wChecker : Checker where
  symbols := [c1wIfaceSym, c1wExportSym]
  types := []
  typeOfSym := fun _ => 0
  moduleSymbol := fun n => if n = "/lib/b.d.ts" then some 5 else none
  exportsOfModule := fun m => if m = 5 then [1] else []
  declLine := fun _ => 0

/-- A declaration file declaring interface `X` whose type has no
properties at all. -/
def c2wFile : SourceFileData where
  fileName := "/lib/c.d.ts"
  isDeclarationFile := true
  decls := [.interfaceDecl "X" 0 []]

/-- A type with no properties and no signatures. -/
def emptyTy : TyData where
  props := []
  callSignatures := []
  constructSignatures := []
  typeString := "X"
  typeStringNoTrunc := "X"

/-- Checker for `c2wFile`: symbol 0 is `X`, its type has an empty
property list, so any member descent below `X` fails. -/
def c2wChecker : Checker where
  symbols := [c1wIfaceSym]
  types := [emptyTy]
  typeOfSym := fun _ => 0
  moduleSymbol := fun _ => none
  exportsOfModule := fun _ => []
  declLine := fun _ => 0

/-- A file-system oracle on which nothing resolves: no packages, no
TypeScript installation. -/
def emptyFs : FsEnv where
  requireResolve := fun _ => none
  readFileJson := fun _ => none
  existsSync := fun _ => false
  readdir := fun _ => none

/-- Environment for the member-descent witness: an empty universe feeds a
program containing only `c2wFile`. -/
def c2wEnv : Env where
  fs := emptyFs
  createProgram := fun _ => .ok { sourceFiles := [c2wFile], checker := c2wChecker }

/-- The `greet` function declaration of `example.ts`. -/
def exGreetDecl : Decl := .functionDecl "greet"

/-- The declared members of the `Person` interface of `example.ts`. -/
def exPersonMembers : List MemberDecl :=
  [⟨some "name", .propertySig, some "string", false, false, none, 5⟩,
    ⟨some "age", .propertySig, some "number", false, false, none, 6⟩,
    ⟨some "email", .propertySig, some "string", false, true, none, 7⟩]

/-- The `Person` interface declaration of `example.ts`. -/
def exPersonDecl : Decl := .interfaceDecl "Person" 1 exPersonMembers

/-- The `add` variable declaration of `example.ts`. -/
def exAddDecl : Decl := .variableDecl "add"

/-- The literal source text of the type aliased by `Config`. -/
def exConfigTypeText : String :=
  "\x7b\n    /** Enable debug mode */\n    debug: boolean;\n    /** Port number */\n    port: number;\n\x7d"

/-- The `Config` type-alias declaration of `example.ts`. -/
def exConfigDecl : Decl := .typeAliasDecl "Config" 3 exConfigTypeText

/-- The declaration file of the example module, with `example.ts`'s four
top-level declarations. -/
def exampleFileData : SourceFileData where
  fileName := "/node_modules/example/index.d.ts"
  isDeclarationFile := true
  decls := [exGreetDecl, exPersonDecl, .variableStatement [⟨some "add", 2⟩], exConfigDecl]

/-- A standard-library declaration file accompanying the example module in
the program. -/
def exLibFileData : SourceFileData where
  fileName := "/node_modules/typescript/lib/lib.es5.d.ts"
  isDeclarationFile := true
  decls := []

/-- Checker for the example module: symbols 0–3 are `greet`, `Person`,
`add` and `Config` with the documentation comments of `example.ts`,
symbol 4 is the module symbol whose exports are exactly those four, and
symbols 5–7 are the `Person` member symbols. -/
def exampleChecker : Checker where
  symbols :=
    [⟨"greet", some exGreetDecl, [exGreetDecl], [],
        "A simple greeting function that says hello", false⟩,
      ⟨"Person", none, [exPersonDecl], [],
        "A person interface representing basic user data", false⟩,
      ⟨"add", some exAddDecl, [exAddDecl], [],
        "Calculate the sum of two numbers", false⟩,
      ⟨"Config", none, [exConfigDecl], [], "A configuration type", false⟩,
      ⟨"example", none, [], [], "", false⟩,
      ⟨"name", none, [], [], "The person" ++ squote ++ "s full name", false⟩,
      ⟨"age", none, [], [], "The person" ++ squote ++ "s age in years", false⟩,
      ⟨"email", none, [], [], "Optional email address", true⟩]
  types := [⟨[], [], [], "", ""⟩]
  typeOfSym := fun _ => 0
  moduleSymbol := fun n => if n = "/node_modules/example/index.d.ts" then some 4 else none
  exportsOfModule := fun m => if m = 4 then [0, 1, 2, 3] else []
  declLine := fun _ => 0

/-- Modelled from the spec: the local-file discovery collaborator
(`findLocalDeclarationCandidate`, spec section 6) that lets a local module
such as `./example.ts` enter the declaration universe is absent from the
sources under `src/`; only the README documents it.  This oracle models
the example module's declaration file entering the universe through the
package-resolution path `findAndPrintDocs` actually implements, so the
export-listing behaviour itself is exercised exactly as in the source. -/
def exampleFs : FsEnv where
  requireResolve := fun s =>
    if s = "typescript" then some "/node_modules/typescript/lib/typescript.js"
    else if s = "example/package.json" then some "/node_modules/example/package.json"
    else none
  readFileJson := fun p =>
    if p = "/node_modules/example/package.json" then some ⟨some "index.d.ts", none⟩
    else none
  existsSync := fun _ => false
  readdir := fun d =>
    if d = "/node_modules/typescript/lib" then some ["lib.es5.d.ts"] else none

/-- Environment of the example-module scenario: the example file system
plus a program of the standard-library file and the example module. -/
def exampleEnv : Env where
  fs := exampleFs
  createProgram := fun _ =>
    .ok { sourceFiles := [exLibFileData, exampleFileData], checker := exampleChecker }

/-- Twenty-one interface members named `m0`–`m20`, all typed `number`. -/
def c4Members : List MemberDecl :=
  (List.range 21).map fun i =>
    ⟨some ("m" ++ toString i), .propertySig, some "number", false, false, none, 0⟩

/-- An interface declaration with 21 members. -/
def c4Decl : Decl := .interfaceDecl "Big" 0 c4Members

/-- Checker for the 21-member interface. -/
def c4Checker : Checker where
  symbols := [⟨"Big", none, [c4Decl], [], "", false⟩]
  types := [⟨[], [], [], "Big", "Big"⟩]
  typeOfSym := fun _ => 0
  moduleSymbol := fun _ => none
  exportsOfModule := fun _ => []
  declLine := fun _ => 0

/-- The declaration file holding the 21-member interface. -/
def c4File : SourceFileData where
  fileName := "/lib/big.d.ts"
  isDeclarationFile := true
  decls := [c4Decl]

/-- The capped type of the truncation witness: 21 properties with symbol
ids 1–21. -/
def c4wTy : TyData where
  props := (List.range 21).map (· + 1)
  callSignatures := []
  constructSignatures := []
  typeString := "T"
  typeStringNoTrunc := "T"

/-- Checker whose type 0 has 21 properties (symbol ids 1–21) and whose
module symbol 30 exports 51 names: both caps are exceeded. -/
def c4wChecker : Checker where
  symbols :=
    ⟨"v", some (.variableDecl "v"), [.variableDecl "v"], [], "", false⟩ ::
      ((List.range 21).map fun i =>
        ⟨"p" ++ toString i,
          some (.propertySigDecl ("p" ++ toString i) false ⟨false, false⟩),
          [], [], "", false⟩)
  types := [c4wTy]
  typeOfSym := fun _ => 0
  moduleSymbol := fun n => if n = "/lib/m.d.ts" then some 30 else none
  exportsOfModule := fun m => if m = 30 then List.replicate 51 0 else []
  declLine := fun _ => 0

/-- The declaration file whose module symbol exports 51 names. -/
def c4wFile : SourceFileData where
  fileName := "/lib/m.d.ts"
  isDeclarationFile := true
  decls := []

/-- Environment in which nothing resolves: every lookup fails, the
universe is empty, and the program has no files. -/
def c5nfEnv : Env where
  fs := emptyFs
  createProgram := fun _ =>
    .ok { sourceFiles := [],
          checker :=
            { symbols := [], types := [], typeOfSym := fun _ => 0,
              moduleSymbol := fun _ => none, exportsOfModule := fun _ => [],
              declLine := fun _ => 0 } }

/-- Environment whose program builder raises, modelling an internal
loader exception. -/
def c5errEnv : Env where
  fs := emptyFs
  createProgram := fun _ => .error "boom"

/-- A standard-library declaration file declaring interface `X`, placed
first in the universe of the package-root scenario. -/
def c9LibFile : SourceFileData where
  fileName := "/node_modules/typescript/lib/lib.es5.d.ts"
  isDeclarationFile := true
  decls := [.interfaceDecl "X" 0 []]

/-- The recognized package's own declaration file, which does not declare
or export `X`. -/
def c9PkgFile : SourceFileData where
  fileName := "/node_modules/mypkg/index.d.ts"
  isDeclarationFile := true
  decls := []

/-- Checker for the package-root scenario: only the standard library's
interface `X` exists. -/
def c9Checker : Checker where
  symbols := [c1wIfaceSym]
  types := [emptyTy]
  typeOfSym := fun _ => 0
  moduleSymbol := fun _ => none
  exportsOfModule := fun _ => []
  declLine := fun _ => 0

/-- The program of the package-root scenario: standard library first,
then the package's declaration file. -/
def c9Prog : ProgramData where
  sourceFiles := [c9LibFile, c9PkgFile]
  checker := c9Checker

/-- File system of the package-root scenario: `mypkg` is an installed
package with a `types` manifest entry. -/
def c9Fs : FsEnv where
  requireResolve := fun s =>
    if s = "typescript" then some "/node_modules/typescript/lib/typescript.js"
    else if s = "mypkg/package.json" then some "/node_modules/mypkg/package.json"
    else none
  readFileJson := fun p =>
    if p = "/node_modules/mypkg/package.json" then some ⟨some "index.d.ts", none⟩
    else none
  existsSync := fun _ => false
  readdir := fun d =>
    if d = "/node_modules/typescript/lib" then some ["lib.es5.d.ts"] else none

/-- Environment of the package-root scenario. -/
def c9Env : Env where
  fs := c9Fs
  createProgram := fun _ => .ok c9Prog

/-- A declaration file with no statements whose module export list holds
a declaration-less symbol `G`. -/
def c10File : SourceFileData where
  fileName := "/lib/d.d.ts"
  isDeclarationFile := true
  decls := []

/-- Checker for the declaration-less-symbol scenario: symbol 0 (`G`) has
neither a value declaration nor any declaration. -/
def c10Checker : Checker where
  symbols := [⟨"G", none, [], [], "", false⟩]
  types := []
  typeOfSym := fun _ => 0
  moduleSymbol := fun n => if n = "/lib/d.d.ts" then some 1 else none
  exportsOfModule := fun m => if m = 1 then [0] else []
  declLine := fun _ => 0

/-- Environment of the declaration-less-symbol scenario. -/
def c10Env : Env where
  fs := emptyFs
  createProgram := fun _ => .ok { sourceFiles := [c10File], checker := c10Checker }

/-- Checker whose symbol 0 carries a `@deprecated` tag with text, and a
variable declaration. -/
def c8wChecker : Checker where
  symbols :=
    [⟨"old", some (.variableDecl "old"), [.variableDecl "old"],
      [⟨"deprecated", some "Use addNew instead"⟩], "", false⟩]
  types := [⟨[], [], [], "number", "number"⟩]
  typeOfSym := fun _ => 0
  moduleSymbol := fun _ => none
  exportsOfModule := fun _ => []
  declLine := fun _ => 0

/-- The declaration file of the deprecated-tag witness. -/
def c8wFile : SourceFileData where
  fileName := "/lib/e.d.ts"
  isDeclarationFile := true
  decls := [.variableStatement [⟨some "old", 0⟩]]

/-- A node declaring `first` under one of the shapes the walk matches has
a successful per-node visit. -/
theorem visitNode_isSome_of_named {first : String} {d : Decl}
    (h : isNamedTopDecl first d = true) : (visitNode first d).isSome := by
  cases d with
  | interfaceDecl n s ms =>
    simp only [isNamedTopDecl, beq_iff_eq] at h
    simp [visitNode, h]
  | classDecl n s =>
    simp only [isNamedTopDecl, beq_iff_eq] at h
    simp [visitNode, h]
  | typeAliasDecl n s t =>
    simp only [isNamedTopDecl, beq_iff_eq] at h
    simp [visitNode, h]
  | variableStatement ds =>
    simp only [isNamedTopDecl, List.any_eq_true, beq_iff_eq] at h
    obtain ⟨v, hv, hn⟩ := h
    have hfind : (ds.reverse.find? fun x => x.name = some first).isSome := by
      rw [List.find?_isSome]
      exact ⟨v, List.mem_reverse.mpr hv, by simp [hn]⟩
    simpa [visitNode, Option.isSome_map] using hfind
  | functionDecl n => simp [isNamedTopDecl] at h
  | methodDecl n => simp [isNamedTopDecl] at h
  | methodSigDecl n => simp [isNamedTopDecl] at h
  | propertyDecl n q m => simp [isNamedTopDecl] at h
  | propertySigDecl n q m => simp [isNamedTopDecl] at h
  | variableDecl n => simp [isNamedTopDecl] at h
  | enumDecl n => simp [isNamedTopDecl] at h
  | moduleDecl n s b => simp [isNamedTopDecl] at h
  | exportDecl els => simp [isNamedTopDecl] at h
  | otherDecl => simp [isNamedTopDecl] at h

/-- The statement-list walk succeeds whenever some statement declares the
searched name under a matched shape. -/
theorem visitDecls_isSome_of_mem {first : String} {d : Decl} {decls : List Decl}
    (hm : d ∈ decls) (h : isNamedTopDecl first d = true) :
    (visitDecls first decls).isSome := by
  induction decls with
  | nil => cases hm
  | cons e es ih =>
    rw [visitDecls]
    cases hm with
    | head =>
      have hs := visitNode_isSome_of_named h
      cases h2 : visitNode first d with
      | none => rw [h2] at hs; cases hs
      | some a => simp [h2, Option.orElse]
    | tail _ hm2 =>
      cases h2 : visitNode first e with
      | some a => simp [h2, Option.orElse]
      | none => simpa [h2, Option.orElse] using ih hm2

/-- C1 (amended): when a file declares the root name at top level as an
interface, class, type alias or variable, the syntax-tree walk (step 1)
finds a declaration symbol and resolution proceeds from it by member
descent; the file's module-export-list fallback (step 2) is never
consulted.  Declared functions are excluded: the walk does not match
function declarations, so they resolve only through the fallback. -/
theorem c1_root_declaration_priority
    (c : Checker) (file : SourceFileData) (first : String) (rest : List String)
    (d : Decl) (hm : d ∈ file.decls) (hd : isNamedTopDecl first d = true) :
    ∃ s, rootSearch file first = some s ∧
      findSymbolInFile c file (first :: rest) = descend c rest s := by
  obtain ⟨s, hs⟩ := Option.isSome_iff_exists.mp (visitDecls_isSome_of_mem hm hd)
  refine ⟨s, hs, ?_⟩
  simp [findSymbolInFile, rootOf, rootSearch, hs, Option.orElse]

/-- C1 counterexample: a declaration file whose single statement is the
top-level declared function `f`, exported by the file's module.  The root
search (step 1) does not find the declared function, and the overall
per-file resolution succeeds only through the module-export-list fallback
(step 2) — contradicting the claim that a declared top-level function is
found by step 1 before step 2 is consulted. -/
theorem c1_root_function_counterexample :
    rootSearch c1File "f" = none ∧
    exportFallback c1Checker c1File "f" = some 0 ∧
    findSymbolInFile c1Checker c1File ["f"] = some 0 := by
  refine ⟨by decide, by decide, by decide⟩

/-- Witness for the amended C1: a file declaring interface `X` whose
module export list also carries a (different) symbol named `X`; the
declared interface symbol wins. -/
theorem c1_root_declaration_priority_witness :
    findSymbolInFile c1wChecker c1wFile ["X"] = some 0 ∧
    exportFallback c1wChecker c1wFile "X" = some 1 := by
  constructor
  · obtain ⟨s, h1, h2⟩ := c1_root_declaration_priority c1wChecker c1wFile "X" []
      (.interfaceDecl "X" 0 []) (List.Mem.head _) (by decide)
    have h0 : rootSearch c1wFile "X" = some 0 := by decide
    rw [h0] at h1
    cases h1
    exact h2
  · decide

/-- Member descent over a concatenation of segment lists factors through
the intermediate symbol. -/
theorem descend_append (c : Checker) (xs ys : List String) (s : Nat) :
    descend c (xs ++ ys) s =
      match descend c xs s with
      | none => none
      | some t => descend c ys t := by
  induction xs generalizing s with
  | nil => simp [descend]
  | cons x xs ih =>
    simp only [List.cons_append, descend]
    cases h1 : getDeclOf (getSym c s) with
    | none => simp
    | some d =>
      cases h2 : getProperty c (getTy c s) x with
      | none => simp
      | some p => simp [ih p]

/-- If descent from the root reaches a symbol whose type lacks the next
segment as a property, the per-file search yields nothing. -/
theorem findSymbolInFile_none_of_missing (c : Checker) (file : SourceFileData)
    (first part : String) (pre post : List String) (s t : Nat)
    (hroot : rootOf c file first = some s)
    (hpre : descend c pre s = some t)
    (hmiss : getProperty c (getTy c t) part = none) :
    findSymbolInFile c file (first :: (pre ++ part :: post)) = none := by
  simp only [findSymbolInFile, hroot]
  rw [descend_append, hpre]
  cases h : getDeclOf (getSym c t) with
  | none => simp [descend, h]
  | some d => simp [descend, h, hmiss]

/-- When every declaration file's per-file search fails, the non-package
file loop reports `notFound` once. -/
theorem searchLoop_notFound (c : Checker) (files : List SourceFileData)
    (pkgFiles : List String) (rootModule : String) (searchParts : List String)
    (symbolPath : String)
    (h : ∀ sf ∈ files, sf.isDeclarationFile = true →
      findSymbolInFile c sf searchParts = none) :
    searchLoop c files pkgFiles false rootModule searchParts symbolPath =
      .notFound symbolPath := by
  induction files with
  | nil => rfl
  | cons sf rest ih =>
    have hrest := fun f hf => h f (List.mem_cons_of_mem _ hf)
    cases hd : sf.isDeclarationFile with
    | false =>
      simp only [searchLoop, hd]
      exact ih hrest
    | true =>
      have hn := h sf (List.mem_cons_self _ _) hd
      simp only [searchLoop, hd, hn, Bool.false_and, Bool.not_false, if_true, if_false]
      simpa using ih hrest

/-- C2: for a path of at least two segments whose root is not a package
name, if in every declaration file the root either does not resolve or the
member descent reaches an intermediate symbol whose type lacks the next
segment as a property, then the whole invocation resolves to the
`notFound` outcome for the full original path — never to a (partial)
symbol description of the intermediate entity. -/
theorem c2_missing_member_not_found
    (env : Env) (p first : String) (rest : List String) (prog : ProgramData)
    (hsplit : splitOnChar p (Char.ofNat 46) = first :: rest)
    (hpkg : tryFindPackage env.fs first = false)
    (hprog : env.createProgram (getLibFiles env.fs none) = .ok prog)
    (habort : ∀ sf ∈ prog.sourceFiles, sf.isDeclarationFile = true →
      rootOf prog.checker sf first = none ∨
      ∃ s pre t part post, rootOf prog.checker sf first = some s ∧
        rest = pre ++ part :: post ∧ descend prog.checker pre s = some t ∧
        getProperty prog.checker (getTy prog.checker t) part = none) :
    findAndPrintDocs env p = .ok (.notFound p) := by
  have hfile : ∀ sf ∈ prog.sourceFiles, sf.isDeclarationFile = true →
      findSymbolInFile prog.checker sf (first :: rest) = none := by
    intro sf hsf hd
    rcases habort sf hsf hd with hnone | ⟨s, pre, t, part, post, hr, he, hpre, hmiss⟩
    · simp [findSymbolInFile, hnone]
    · subst he
      exact findSymbolInFile_none_of_missing _ _ _ _ _ _ _ _ hr hpre hmiss
  simp [findAndPrintDocs, hsplit, hpkg, hprog]
  exact searchLoop_notFound _ _ _ _ _ _ hfile

/-- Witness for C2: resolving `X.m` where interface `X` exists but its
type has no property `m` reports `notFound` for the full path. -/
theorem c2_missing_member_not_found_witness :
    findAndPrintDocs c2wEnv "X.m" = .ok (.notFound "X.m") := by
  refine c2_missing_member_not_found c2wEnv "X.m" "X" ["m"]
    { sourceFiles := [c2wFile], checker := c2wChecker }
    (by decide) (by decide) rfl ?_
  intro sf hsf hd
  rcases List.mem_singleton.mp hsf with rfl
  exact Or.inr ⟨0, [], 0, "m", [], by decide, rfl, rfl, by decide⟩

/-- A package-root query never produces a symbol description: the file
loop with the package flag set can only answer with an export listing or
the not-found report. -/
theorem searchLoop_pkg_no_symbolDocs (c : Checker) (files : List SourceFileData)
    (pkgFiles : List String) (rootModule : String) (searchParts : List String)
    (symbolPath : String) (s : Nat) (f : String) (chunks : List String) :
    searchLoop c files pkgFiles true rootModule searchParts symbolPath ≠
      .symbolDocs s f chunks := by
  induction files with
  | nil => simp [searchLoop]
  | cons sf rest ih =>
    by_cases h1 : sf.isDeclarationFile
    · by_cases h2 : sf.fileName ∈ pkgFiles
      · simp [searchLoop, h1, h2]
      · simpa [searchLoop, h1, h2] using ih
    · simpa [searchLoop, h1] using ih

/-- C3: a root name recognized as a package, queried alone (the path has
no dot), yields an export listing or the not-found report, never a symbol
description; and the example module's listing contains exactly the four
exported names `greet`, `Person`, `add`, `Config`, classified as
function, interface, variable and type alias respectively, each with its
one-line documentation excerpt. -/
theorem c3_module_root_export_listing :
    (∀ (env : Env) (root : String) (prog : ProgramData),
      tryFindPackage env.fs root = true →
      splitOnChar root (Char.ofNat 46) = [root] →
      env.createProgram (getLibFiles env.fs (some root)) = .ok prog →
      ∀ (s : Nat) (f : String) (chunks : List String),
        findAndPrintDocs env root ≠ .ok (.symbolDocs s f chunks)) ∧
    findAndPrintDocs exampleEnv "example" =
      .ok (.exportListing
        ["\nexample", "=======", "\nKind: package",
          "Location: /node_modules/example/index.d.ts", "\nExports (4):",
          "  greet (function)", "    A simple greeting function that says hello",
          "  Person (interface)", "    A person interface representing basic user data",
          "  add (variable)", "    Calculate the sum of two numbers",
          "  Config (type alias)", "    A configuration type",
          "\nTip: Use " ++ squote ++ "tsdoc example.<symbol>" ++ squote
            ++ " to view details for a specific export"]) := by
  constructor
  · intro env root prog h1 h2 h3 s f chunks
    simp [findAndPrintDocs, h1, h2, h3]
    exact searchLoop_pkg_no_symbolDocs _ _ _ _ _ _ _ _ _
  · rfl

/-- Witness for C3: the example-module environment exercises both halves
of the statement at the concrete root `example`. -/
theorem c3_module_root_export_listing_witness :
    findAndPrintDocs exampleEnv "example" ≠ .ok (.symbolDocs 0 "x" []) :=
  c3_module_root_export_listing.1 exampleEnv "example"
    { sourceFiles := [exLibFileData, exampleFileData], checker := exampleChecker }
    (by decide) (by decide) rfl 0 "x" []

/-- C4 counterexample: the interface branch of the member section has no
cap.  Printing the 21-member interface `Big` produces 21 member entry
lines — more than the claimed cap of 20 — and no `"... and N more"`
truncation report anywhere in the output. -/
theorem c4_interface_members_uncapped_counterexample :
    (printSymbolDocs c4Checker c4File 0).countP isEntryLine = 21 ∧
    (printSymbolDocs c4Checker c4File 0).all (fun s => !(strStartsWith s "  ...")) = true := by
  exact ⟨by decide, by decide⟩

/-- A chunk starting with a newline is not a listing entry line. -/
theorem entry_nl (x : String) : isEntryLine ("\n" ++ x) = false := by
  cases x with
  | mk l => rfl

/-- A location chunk is not a listing entry line. -/
theorem entry_loc (x : String) : isEntryLine ("Location: " ++ x) = false := by
  cases x with
  | mk l => rfl

/-- A doc-excerpt chunk (four leading spaces) is not a listing entry
line. -/
theorem entry_doc (x : String) : isEntryLine ("    " ++ x) = false := by
  cases x with
  | mk l => rfl

/-- The truncation report is not a listing entry line. -/
theorem entry_more (x : String) : isEntryLine ("  ... and " ++ x) = false := by
  cases x with
  | mk l => rfl

/-- The exports header is not a listing entry line. -/
theorem entry_exports (x : String) : isEntryLine ("\nExports (" ++ x) = false := by
  cases x with
  | mk l => rfl

/-- The tip line is not a listing entry line. -/
theorem entry_tip (x : String) : isEntryLine ("\nTip: Use " ++ x) = false := by
  cases x with
  | mk l => rfl

/-- A name underline is not a listing entry line. -/
theorem entry_eqline (n : Nat) : isEntryLine (repeatStr n "=") = false := by
  cases n with
  | zero => rfl
  | succ k =>
    show isEntryLine ("=" ++ repeatStr k "=") = false
    cases h : repeatStr k "=" with
    | mk l => rfl

/-- Counting over a flat map is bounded by the list length when every
image contributes at most one counted element. -/
theorem countP_flatMap_le {α : Type} (p : String → Bool) (f : α → List String)
    (l : List α) (h : ∀ x ∈ l, (f x).countP p ≤ 1) :
    (l.flatMap f).countP p ≤ l.length := by
  induction l with
  | nil => simp
  | cons a as ih =>
    rw [List.flatMap_cons, List.countP_append]
    have h1 := h a (List.mem_cons_self _ _)
    have h2 := ih fun x hx => h x (List.mem_cons_of_mem _ hx)
    simp only [List.length_cons]
    omega

/-- One property contributes at most one entry line: its doc excerpt line
carries four leading spaces. -/
theorem propLine_countP_le_one (c : Checker) (p : Nat) :
    (propLine c p).countP isEntryLine ≤ 1 := by
  simp only [propLine]
  cases h : getDeclOf (getSym c p) with
  | none => simp
  | some d =>
    rw [List.countP_append]
    have h1 : ∀ a : String, ([a]).countP isEntryLine ≤ 1 := fun a => by
      simpa using List.countP_le_length (l := [a]) isEntryLine
    have h2 : (if (getSym c p).docComment ≠ "" then
        ["    " ++ headSplit (getSym c p).docComment "\n"] else []).countP isEntryLine = 0 := by
      split
      · simp [List.countP_cons, entry_doc]
      · simp
    rw [h2]
    simpa using h1 _

/-- One export contributes at most one entry line. -/
theorem exportLine_countP_le_one (c : Checker) (e : Nat) :
    (exportLine c e).countP isEntryLine ≤ 1 := by
  simp only [exportLine]
  cases h : getDeclOf (getSym c e) with
  | none => simp
  | some d =>
    rw [List.countP_append]
    have h1 : ∀ a : String, ([a]).countP isEntryLine ≤ 1 := fun a => by
      simpa using List.countP_le_length (l := [a]) isEntryLine
    have h2 : ∀ b : List String, (∀ x ∈ b, isEntryLine x = false) → b.countP isEntryLine = 0 :=
      fun b hb => List.countP_eq_zero.mpr fun a ha => by simp [hb a ha]
    have h3 : (if (if (getSym c e).docComment ≠ "" then
          strTake (headSplit (getSym c e).docComment "\n") 80 ++
            (if (getSym c e).docComment.length > 80 then "..." else "")
        else "") ≠ "" then
        ["    " ++ (if (getSym c e).docComment ≠ "" then
          strTake (headSplit (getSym c e).docComment "\n") 80 ++
            (if (getSym c e).docComment.length > 80 then "..." else "")
        else "")] else []).countP isEntryLine = 0 := by
      split
      · simp [List.countP_cons, entry_doc]
      · simp
    rw [h3]
    simpa using h1 _

/-- The non-interface member listing holds at most 20 entry lines. -/
theorem propertyMemberLines_countP_le (c : Checker) (ty : TyData) :
    (propertyMemberLines c ty).countP isEntryLine ≤ 20 := by
  by_cases h : ty.props.length > 0
  · simp only [propertyMemberLines, if_pos h]
    rw [List.countP_append, List.countP_cons]
    have hflat : ((ty.props.take 20).flatMap (propLine c)).countP isEntryLine ≤ 20 :=
      le_trans (countP_flatMap_le _ _ _ fun x _ => propLine_countP_le_one c x)
        (by simp)
    have hmore : (if ty.props.length > 20 then
        ["  ... and " ++ toString (ty.props.length - 20) ++ " more"] else
        []).countP isEntryLine = 0 := by
      split
      · simp [List.countP_cons, String.append_assoc, entry_more]
      · simp
    have hhead : isEntryLine "\nMembers:" = false := by decide
    rw [hmore, hhead]
    simp
    exact hflat
  · simp [propertyMemberLines, h]

/-- When the property count exceeds the cap, the listing ends with the
exact omitted count. -/
theorem propertyMemberLines_more (c : Checker) (ty : TyData)
    (h : ty.props.length > 20) :
    (propertyMemberLines c ty).getLast? =
      some ("  ... and " ++ toString (ty.props.length - 20) ++ " more") := by
  have h0 : ty.props.length > 0 := by omega
  simp only [propertyMemberLines, if_pos h0, if_pos h]
  exact List.getLast?_concat _

/-- The export listing holds at most 50 entry lines. -/
theorem printModuleExports_countP_le (c : Checker) (sf : SourceFileData) (pkg : String) :
    (printModuleExports c sf pkg).countP isEntryLine ≤ 50 := by
  simp only [printModuleExports]
  have hh : (["\n" ++ pkg, repeatStr pkg.length "=", "\nKind: package",
      "Location: " ++ sf.fileName]).countP isEntryLine = 0 := by
    simp [List.countP_cons, entry_nl, entry_loc, entry_eqline,
      show isEntryLine "\nKind: package" = false by decide]
  cases hm : c.moduleSymbol sf.fileName with
  | none =>
    rw [List.countP_append, hh]
    simp [List.countP_cons, show isEntryLine "\nNo exports found" = false by decide]
  | some m =>
    by_cases hl : (c.exportsOfModule m).length > 0
    · simp only [if_pos hl]
      simp only [List.countP_append, hh]
      have hex : ([("\nExports (" ++ toString (c.exportsOfModule m).length ++ "):")]).countP
          isEntryLine = 0 := by
        simp [List.countP_cons, String.append_assoc, entry_exports]
      have hflat : (((c.exportsOfModule m).take 50).flatMap (exportLine c)).countP
          isEntryLine ≤ 50 :=
        le_trans (countP_flatMap_le _ _ _ fun x _ => exportLine_countP_le_one c x)
          (by simp)
      have hmore : (if (c.exportsOfModule m).length > 50 then
          ["  ... and " ++ toString ((c.exportsOfModule m).length - 50) ++ " more"] else
          []).countP isEntryLine = 0 := by
        split
        · simp [List.countP_cons, String.append_assoc, entry_more]
        · simp
      have htip : ([("\nTip: Use " ++ squote ++ "tsdoc " ++ pkg ++ ".<symbol>" ++ squote
          ++ " to view details for a specific export")]).countP isEntryLine = 0 := by
        simp [List.countP_cons, String.append_assoc, entry_tip]
      rw [hex, hmore, htip]
      omega
    · simp only [if_neg hl]
      rw [hh]
      omega

/-- When the export count exceeds the cap, the listing contains the exact
omitted count. -/
theorem printModuleExports_more_mem (c : Checker) (sf : SourceFileData) (pkg : String)
    (m : Nat) (hm : c.moduleSymbol sf.fileName = some m)
    (h : (c.exportsOfModule m).length > 50) :
    ("  ... and " ++ toString ((c.exportsOfModule m).length - 50) ++ " more")
      ∈ printModuleExports c sf pkg := by
  have h0 : (c.exportsOfModule m).length > 0 := by omega
  simp [printModuleExports, hm, h0, h]

/-- C4 (amended): the export listing never holds more than 50 entry lines
and the non-interface member listing never more than 20; when the caps
are exceeded the output states the exact omitted count, `total - cap`.
The interface branch of the member section is exempt: it iterates every
declared member with no cap (see the counterexample). -/
theorem c4_listing_caps (c : Checker) (ty : TyData) (sf : SourceFileData) (pkg : String) :
    (propertyMemberLines c ty).countP isEntryLine ≤ 20 ∧
    (ty.props.length > 20 →
      (propertyMemberLines c ty).getLast? =
        some ("  ... and " ++ toString (ty.props.length - 20) ++ " more")) ∧
    (printModuleExports c sf pkg).countP isEntryLine ≤ 50 ∧
    (∀ m, c.moduleSymbol sf.fileName = some m → (c.exportsOfModule m).length > 50 →
      ("  ... and " ++ toString ((c.exportsOfModule m).length - 50) ++ " more")
        ∈ printModuleExports c sf pkg) :=
  ⟨propertyMemberLines_countP_le c ty,
    fun h => propertyMemberLines_more c ty h,
    printModuleExports_countP_le c sf pkg,
    fun m hm h => printModuleExports_more_mem c sf pkg m hm h⟩

/-- Witness for the amended C4: a type with 21 properties truncates at 20
with the report `... and 1 more`; a module with 51 exports reports
`... and 1 more` in its listing. -/
theorem c4_listing_caps_witness :
    (propertyMemberLines c4wChecker c4wTy).countP isEntryLine ≤ 20 ∧
    (propertyMemberLines c4wChecker c4wTy).getLast? = some "  ... and 1 more" ∧
    "  ... and 1 more" ∈ printModuleExports c4wChecker c4wFile "pkg" := by
  obtain ⟨h1, h2, h3, h4⟩ := c4_listing_caps c4wChecker c4wTy c4wFile "pkg"
  refine ⟨h1, ?_, ?_⟩
  · exact (h2 (by decide)).trans (by decide)
  · have h5 := h4 30 (by decide) (by decide)
    have he : ("  ... and 1 more" : String) =
        "  ... and " ++ toString ((c4wChecker.exportsOfModule 30).length - 50) ++ " more" := by
      decide
    rw [he]
    exact h5

/-- C5: the invocation surface.  `-h`, `--help` or a missing argument
prints the usage text and exits with status 0; a resolution failure
prints exactly `Symbol <squote><path><squote> not found` — with the full
original dotted path — on the error stream and exits with status 1; an
internal exception prints `Error: <message>` on the error stream and
exits with status 1; success prints the description chunks on standard
output and exits with status 0. -/
theorem c5_invocation_surface :
    (∀ env : Env, main env [] = { exitCode := 0, stdout := [usageText], stderr := [] }) ∧
    (∀ env : Env, main env ["-h"] = { exitCode := 0, stdout := [usageText], stderr := [] }) ∧
    (∀ env : Env,
      main env ["--help"] = { exitCode := 0, stdout := [usageText], stderr := [] }) ∧
    (∀ (env : Env) (p : String), p ≠ "-h" → p ≠ "--help" →
      findAndPrintDocs env p = .ok (.notFound p) →
      main env [p] =
        { exitCode := 1, stdout := [],
          stderr := ["Symbol " ++ squote ++ p ++ squote ++ " not found"] }) ∧
    (∀ (env : Env) (p msg : String), p ≠ "-h" → p ≠ "--help" →
      findAndPrintDocs env p = .error msg →
      main env [p] = { exitCode := 1, stdout := [], stderr := ["Error: " ++ msg] }) ∧
    (∀ (env : Env) (p : String) (s : Nat) (f : String) (chunks : List String),
      p ≠ "-h" → p ≠ "--help" →
      findAndPrintDocs env p = .ok (.symbolDocs s f chunks) →
      main env [p] = { exitCode := 0, stdout := chunks, stderr := [] }) ∧
    (∀ (env : Env) (p : String) (chunks : List String), p ≠ "-h" → p ≠ "--help" →
      findAndPrintDocs env p = .ok (.exportListing chunks) →
      main env [p] = { exitCode := 0, stdout := chunks, stderr := [] }) := by
  refine ⟨fun env => rfl, fun env => rfl, fun env => rfl, ?_, ?_, ?_, ?_⟩
  · intro env p hp1 hp2 hres
    simp [main, hp1, hp2, hres, notFoundMessage]
  · intro env p msg hp1 hp2 hres
    simp [main, hp1, hp2, hres]
  · intro env p s f chunks hp1 hp2 hres
    simp [main, hp1, hp2, hres]
  · intro env p chunks hp1 hp2 hres
    simp [main, hp1, hp2, hres]

/-- Witness for C5: the empty environment reports
`Symbol <squote>Array.doesNotExist<squote> not found` with status 1, the
raising environment reports `Error: boom` with status 1, and a bare
invocation prints usage with status 0. -/
theorem c5_invocation_surface_witness :
    main c5nfEnv [] = { exitCode := 0, stdout := [usageText], stderr := [] } ∧
    main c5nfEnv ["Array.doesNotExist"] =
      { exitCode := 1, stdout := [],
          stderr :=
            ["Symbol " ++ squote ++ "Array.doesNotExist" ++ squote ++ " not found"] } ∧
    main c5errEnv ["x"] = { exitCode := 1, stdout := [], stderr := ["Error: boom"] } := by
  obtain ⟨hu, _, _, hnf, herr, _, _⟩ := c5_invocation_surface
  exact ⟨hu c5nfEnv,
    hnf c5nfEnv "Array.doesNotExist" (by decide) (by decide) rfl,
    herr c5errEnv "x" "boom" (by decide) (by decide) rfl⟩

/-- C6: once the TypeScript lib directory enumerates, the universe for a
package query is exactly the standard-library files followed by whatever
`resolvePackageTypes` returns; every standard-library file is in the
universe whatever the package resolution produced (it is a total function
into lists, all its failures caught); and when both the package manifest
and the `@types` manifest fail to resolve, the package contributes no
files at all — and the standard library is still intact. -/
theorem c6_loader_never_fatal (fs : FsEnv) (pkg tsPath : String) (entries : List String)
    (h1 : fs.requireResolve "typescript" = some tsPath)
    (h2 : fs.readdir (dirname tsPath) = some entries) :
    getLibFiles fs (some pkg) = getLibFiles fs none ++ resolvePackageTypes fs pkg ∧
    (∀ f ∈ getLibFiles fs none, f ∈ getLibFiles fs (some pkg)) ∧
    (fs.requireResolve (pkg ++ "/package.json") = none →
      fs.requireResolve (typesPackageName pkg ++ "/package.json") = none →
      resolvePackageTypes fs pkg = []) := by
  have hmain : getLibFiles fs (some pkg) =
      getLibFiles fs none ++ resolvePackageTypes fs pkg := by
    simp [getLibFiles, h1, h2]
  refine ⟨hmain, ?_, ?_⟩
  · intro f hf
    rw [hmain]
    exact List.mem_append_left _ hf
  · intro ha hb
    simp [resolvePackageTypes, ha, typesEntry, hb]

/-- Witness for C6: the example file system exhibits the decomposition
and the standard-library file's membership in the package universe. -/
theorem c6_loader_never_fatal_witness :
    getLibFiles exampleFs (some "example") =
      getLibFiles exampleFs none ++ resolvePackageTypes exampleFs "example" ∧
    "/node_modules/typescript/lib/lib.es5.d.ts" ∈ getLibFiles exampleFs (some "example") := by
  obtain ⟨h1, h2, h3⟩ := c6_loader_never_fatal exampleFs "example"
    "/node_modules/typescript/lib/typescript.js" ["lib.es5.d.ts"] (by decide) (by decide)
  exact ⟨h1, h2 _ (by decide)⟩

/-- C7: when the resolved type has neither call nor construct signatures,
the description consists of the header followed directly by the flat-type
section and the remaining sections (the signature sections vanish), and
the flat-type section is determined by the declaration shape: a type
alias shows the literal aliased type text, an interface shows no flat
type line, anything else shows the checker's rendered type text. -/
theorem c7_flat_type (c : Checker) (sf : SourceFileData) (i : Nat) (decl : Decl)
    (hdecl : getDeclOf (getSym c i) = some decl)
    (hcall : (getTy c i).callSignatures = [])
    (hctor : (getTy c i).constructSignatures = []) :
    printSymbolDocs c sf i =
      headerSection c sf (getSym c i).name decl
        ++ flatTypeSection decl (getTy c i)
        ++ deprecatedSection (getSym c i).jsDocTags
        ++ sinceSection (getSym c i).jsDocTags
        ++ descriptionSection (getSym c i).docComment
        ++ throwsSection (getSym c i).jsDocTags
        ++ examplesSection (getSym c i).jsDocTags
        ++ seeSection (getSym c i).jsDocTags
        ++ otherTagsSection (getSym c i).jsDocTags
        ++ membersSection c decl (getTy c i) ∧
    (∀ n s txt, decl = .typeAliasDecl n s txt →
      flatTypeSection decl (getTy c i) = ["\nType: " ++ txt]) ∧
    (∀ n s ms, decl = .interfaceDecl n s ms → flatTypeSection decl (getTy c i) = []) ∧
    ((∀ n s txt, decl ≠ .typeAliasDecl n s txt) →
      (∀ n s ms, decl ≠ .interfaceDecl n s ms) →
      flatTypeSection decl (getTy c i) = ["\nType: " ++ (getTy c i).typeStringNoTrunc]) := by
  refine ⟨?_, ?_, ?_, ?_⟩
  · simp [printSymbolDocs, hdecl, ctorSigSection, callSigSection, hcall, hctor]
  · rintro n s txt rfl
    simp [flatTypeSection, hcall, hctor]
  · rintro n s ms rfl
    simp [flatTypeSection, hcall, hctor]
  · intro hna hni
    cases decl with
    | typeAliasDecl n s txt => exact absurd rfl (hna n s txt)
    | interfaceDecl n s ms => exact absurd rfl (hni n s ms)
    | classDecl n s => simp [flatTypeSection, hcall, hctor]
    | functionDecl n => simp [flatTypeSection, hcall, hctor]
    | methodDecl n => simp [flatTypeSection, hcall, hctor]
    | methodSigDecl n => simp [flatTypeSection, hcall, hctor]
    | propertyDecl n q m => simp [flatTypeSection, hcall, hctor]
    | propertySigDecl n q m => simp [flatTypeSection, hcall, hctor]
    | variableStatement ds => simp [flatTypeSection, hcall, hctor]
    | variableDecl n => simp [flatTypeSection, hcall, hctor]
    | enumDecl n => simp [flatTypeSection, hcall, hctor]
    | moduleDecl n s b => simp [flatTypeSection, hcall, hctor]
    | exportDecl els => simp [flatTypeSection, hcall, hctor]
    | otherDecl => simp [flatTypeSection, hcall, hctor]

/-- Witness for C7: the `Config` type alias of the example module shows
the literal text of its aliased type. -/
theorem c7_flat_type_witness :
    flatTypeSection exConfigDecl (getTy exampleChecker 3) =
      ["\nType: " ++ exConfigTypeText] := by
  obtain ⟨hdecomp, halias, hiface, hother⟩ :=
    c7_flat_type exampleChecker exampleFileData 3 exConfigDecl rfl rfl rfl
  exact halias _ _ _ rfl

/-- C8: the deprecation note appears in a description exactly when the
symbol's documentation tags contain a tag named `deprecated`; when that
tag carries non-empty text, the note reproduces the text verbatim; with
no such tag the section is empty.  The note occupies its fixed place in
the printed description. -/
theorem c8_deprecated_tag (c : Checker) (sf : SourceFileData) (i : Nat) (decl : Decl)
    (hdecl : getDeclOf (getSym c i) = some decl) :
    ((deprecatedSection (getSym c i).jsDocTags ≠ []) ↔
      ∃ t ∈ (getSym c i).jsDocTags, t.name = "deprecated") ∧
    (∀ t txt, (getSym c i).jsDocTags.find? (fun t => t.name = "deprecated") = some t →
      t.text = some txt → txt ≠ "" →
      deprecatedSection (getSym c i).jsDocTags = ["\nDEPRECATED: " ++ txt]) ∧
    ((getSym c i).jsDocTags.find? (fun t => t.name = "deprecated") = none →
      deprecatedSection (getSym c i).jsDocTags = []) ∧
    (∃ pre post, printSymbolDocs c sf i =
      pre ++ deprecatedSection (getSym c i).jsDocTags ++ post) := by
  refine ⟨?_, ?_, ?_, ?_⟩
  · constructor
    · intro hne
      cases hf : (getSym c i).jsDocTags.find? (fun t => t.name = "deprecated") with
      | none => simp [deprecatedSection, hf] at hne
      | some t =>
        exact ⟨t, List.mem_of_find?_eq_some hf, by simpa using List.find?_some hf⟩
    · rintro ⟨t, ht, hn⟩
      have hs : ((getSym c i).jsDocTags.find? fun t => t.name = "deprecated").isSome := by
        rw [List.find?_isSome]
        exact ⟨t, ht, by simp [hn]⟩
      obtain ⟨u, hu⟩ := Option.isSome_iff_exists.mp hs
      simp [deprecatedSection, hu]
  · intro t txt hf ht hne
    cases txt with
    | mk tl =>
      simp only [deprecatedSection, hf, tagText, ht, Option.getD_some]
      rw [if_pos hne]
      exact rfl
  · intro hf
    simp [deprecatedSection, hf]
  · refine ⟨headerSection c sf (getSym c i).name decl
        ++ ctorSigSection (getTy c i).constructSignatures
        ++ callSigSection (getTy c i).callSignatures
        ++ flatTypeSection decl (getTy c i),
      sinceSection (getSym c i).jsDocTags
        ++ descriptionSection (getSym c i).docComment
        ++ throwsSection (getSym c i).jsDocTags
        ++ examplesSection (getSym c i).jsDocTags
        ++ seeSection (getSym c i).jsDocTags
        ++ otherTagsSection (getSym c i).jsDocTags
        ++ membersSection c decl (getTy c i), ?_⟩
    simp [printSymbolDocs, hdecl]

/-- Witness for C8: the symbol carrying `@deprecated Use addNew instead`
yields exactly that note, verbatim, and a non-empty deprecation section. -/
theorem c8_deprecated_tag_witness :
    deprecatedSection (getSym c8wChecker 0).jsDocTags =
      ["\nDEPRECATED: Use addNew instead"] ∧
    deprecatedSection (getSym c8wChecker 0).jsDocTags ≠ [] := by
  obtain ⟨hiff, htext, hnone, hdecomp⟩ :=
    c8_deprecated_tag c8wChecker c8wFile 0 (.variableDecl "old") rfl
  have h1 := htext ⟨"deprecated", some "Use addNew instead"⟩ "Use addNew instead"
    (by decide) rfl (by decide)
  refine ⟨h1.trans rfl, ?_⟩
  rw [h1]
  simp

/-- C9: when the root names a recognized package and further segments
remain, the remaining segments are searched as a fresh root over the
whole universe in order, standard-library files included: if the first
source file — a standard-library declaration file — resolves the
remaining segment, the result is that entity, regardless of what the
package's own files export. -/
theorem c9_package_member_searches_whole_universe
    (env : Env) (root seg : String) (prog : ProgramData)
    (sf0 : SourceFileData) (rest : List SourceFileData) (s : Nat)
    (hpkg : tryFindPackage env.fs root = true)
    (hsplit : splitOnChar (root ++ "." ++ seg) (Char.ofNat 46) = [root, seg])
    (hprog : env.createProgram (getLibFiles env.fs (some root)) = .ok prog)
    (hfiles : prog.sourceFiles = sf0 :: rest)
    (hdecl : sf0.isDeclarationFile = true)
    (hfound : findSymbolInFile prog.checker sf0 [seg] = some s) :
    findAndPrintDocs env (root ++ "." ++ seg) =
      .ok (.symbolDocs s sf0.fileName (printSymbolDocs prog.checker sf0 s)) := by
  simp [findAndPrintDocs, hsplit, hpkg, hprog, hfiles, searchLoop, hdecl, hfound]

/-- Witness for C9: `mypkg.X` resolves to the standard library's
interface `X` although the package does not export `X`. -/
theorem c9_package_member_searches_whole_universe_witness :
    findAndPrintDocs c9Env "mypkg.X" =
      .ok (.symbolDocs 0 "/node_modules/typescript/lib/lib.es5.d.ts"
        (printSymbolDocs c9Checker c9LibFile 0)) :=
  c9_package_member_searches_whole_universe c9Env "mypkg" "X" c9Prog c9LibFile
    [c9PkgFile] 0 (by decide) (by decide) rfl rfl rfl (by decide)

/-- C10: resolution and description are total in the presence of
declaration-less symbols: member descent returns `none` instead of
faulting when the current symbol has no declaration; the description of a
declaration-less symbol is empty; and a successful resolution whose
description is empty still exits with status 0 and empty output. -/
theorem c10_total_without_declarations :
    (∀ (c : Checker) (s : Nat) (part : String) (rest : List String),
      getDeclOf (getSym c s) = none → descend c (part :: rest) s = none) ∧
    (∀ (c : Checker) (sf : SourceFileData) (i : Nat),
      getDeclOf (getSym c i) = none → printSymbolDocs c sf i = []) ∧
    (∀ (env : Env) (p : String) (s : Nat) (f : String), p ≠ "-h" → p ≠ "--help" →
      findAndPrintDocs env p = .ok (.symbolDocs s f []) →
      main env [p] = { exitCode := 0, stdout := [], stderr := [] }) := by
  refine ⟨?_, ?_, ?_⟩
  · intro c s part rest h
    simp [descend, h]
  · intro c sf i h
    simp [printSymbolDocs, h]
  · intro env p s f hp1 hp2 hres
    simp [main, hp1, hp2, hres]

/-- Witness for C10: the declaration-less exported symbol `G` descends to
nothing, describes to nothing, and the invocation exits 0 with empty
output. -/
theorem c10_total_without_declarations_witness :
    descend c10Checker ["m"] 0 = none ∧
    printSymbolDocs c10Checker c10File 0 = [] ∧
    main c10Env ["G"] = { exitCode := 0, stdout := [], stderr := [] } := by
  obtain ⟨h1, h2, h3⟩ := c10_total_without_declarations
  exact ⟨h1 c10Checker 0 "m" [] rfl, h2 c10Checker c10File 0 rfl,
    h3 c10Env "G" 0 "/lib/d.d.ts" (by decide) (by decide) rfl⟩

end Tsdoc
